import Mathlib

/-!
Shallow embedding of the leave-balance and payroll bookkeeping of the
`workforce` Django app (KiarieChr/edutech).

Conventions of the embedding:
* Django `DecimalField` day/amount quantities are exact fixed-point decimals;
  every operation of the embedded code uses only addition, subtraction and
  order comparison on them, so they are modelled as exact `Int` values
  (the underlying scaled integer of the fixed-point representation).
* Rows of a table are a `List`; `queryset.filter(...).first()` is `List.find?`
  and `obj.save()` writes the row back in place (`saveRow`).
* A request handler is a pure function from the store and its arguments to
  the new store paired with an `HttpResult` (`.ok`, `.badRequest msg`, or
  `.notFound` for `get_object_or_404` misses).
* `timezone.now()` / `request.user` are passed in as explicit arguments.
-/

namespace Edutech

/-- Outcome of a request handler: success, a 400 with an error message, or a
404 raised by `get_object_or_404` / DRF `get_object`. -/
inductive HttpResult where
  | ok : HttpResult
  | badRequest : String → HttpResult
  | notFound : HttpResult
deriving DecidableEq, Repr

/-- Status choices of `LeaveApplication` (models.py). -/
inductive LeaveStatus where
  | draft
  | submitted
  | pending_approval
  | approved
  | rejected
  | cancelled
  | on_leave
  | completed
deriving DecidableEq, Repr

/-- Model `EmployeeLeaveBalance` (models.py): one row per (employee, leave type,
year); day counts are fixed-point decimals modelled as `Int`. -/
structure EmployeeLeaveBalance where
  employee : Nat
  leave_type : Nat
  year : Nat
  opening_balance : Int
  accrued_days : Int
  carried_forward_days : Int
  adjustment_days : Int
  taken_days : Int
  pending_days : Int
  encashed_days : Int
  forfeited_days : Int
  closing_balance : Int
  last_accrual_date : Option Nat
  next_accrual_date : Option Nat
deriving DecidableEq, Repr

/-- Model `LeaveApplication` (models.py); `start_year` is `start_date.year`, the
only component of the dates the embedded handlers inspect. -/
structure LeaveApplication where
  id : Nat
  employee : Nat
  leave_type : Nat
  start_year : Nat
  working_days : Int
  status : LeaveStatus
  submitted_date : Option Nat
  approved_date : Option Nat
  rejected_date : Option Nat
  rejection_reason : String
deriving DecidableEq, Repr

/-- Replace the first row satisfying `key` by `r'`, leaving the rest alone:
the effect of `obj.save()` on the row fetched by `filter(...).first()`. -/
def saveRow {α : Type} (key : α → Bool) (r' : α) : List α → List α
  | [] => []
  | r :: rs => if key r then r' :: rs else r :: saveRow key r' rs

/-- Key predicate of the balance lookup
`EmployeeLeaveBalance.objects.filter(employee=…, leave_type=…, year=…)`. -/
def balanceKey (e t y : Nat) (b : EmployeeLeaveBalance) : Bool :=
  b.employee == e && b.leave_type == t && b.year == y

/-- Embeds `EmployeeLeaveBalance.objects.filter(employee, leave_type, year).first()`. -/
def findBalance (bs : List EmployeeLeaveBalance) (e t y : Nat) :
    Option EmployeeLeaveBalance :=
  bs.find? (balanceKey e t y)

/-- Lookup of a leave application by primary key (`get_object` /
`get_object_or_404`). -/
def findApp (apps : List LeaveApplication) (pk : Nat) : Option LeaveApplication :=
  apps.find? (fun a => a.id == pk)

/-- The leave tables touched by the leave endpoints. -/
structure LeaveState where
  apps : List LeaveApplication
  balances : List EmployeeLeaveBalance
deriving DecidableEq, Repr

/-- Handler `LeaveApplicationViewSet.submit` (viewsets.py): only draft applications
may be submitted; when a balance row exists, reject if
`closing_balance - pending_days < working_days`, otherwise mark the
application submitted and add `working_days` to the balance's
`pending_days`; when no balance row exists the check is skipped and no
balance row is created or changed. -/
def viewsetSubmit (s : LeaveState) (pk : Nat) (now : Nat) :
    LeaveState × HttpResult :=
  match findApp s.apps pk with
  | none => (s, .notFound)
  | some leave_app =>
    if leave_app.status ≠ .draft then
      (s, .badRequest "Can only submit draft applications")
    else
      match findBalance s.balances leave_app.employee leave_app.leave_type
          leave_app.start_year with
      | some balance =>
        let available := balance.closing_balance - balance.pending_days
        if available < leave_app.working_days then
          (s, .badRequest "Insufficient leave balance")
        else
          let app' := { leave_app with
            status := .submitted, submitted_date := some now }
          let balance' := { balance with
            pending_days := balance.pending_days + leave_app.working_days }
          ({ apps := saveRow (fun a => a.id == pk) app' s.apps,
             balances := saveRow
               (balanceKey leave_app.employee leave_app.leave_type
                 leave_app.start_year) balance' s.balances }, .ok)
      | none =>
        let app' := { leave_app with
          status := .submitted, submitted_date := some now }
        ({ s with apps := saveRow (fun a => a.id == pk) app' s.apps }, .ok)

/-- Handler `LeaveApplicationViewSet.approve` (viewsets.py): requires status
`submitted` or `pending_approval`; sets status `approved` and
`approved_date`.  It does not touch any balance row. -/
def viewsetApprove (s : LeaveState) (pk : Nat) (now : Nat) :
    LeaveState × HttpResult :=
  match findApp s.apps pk with
  | none => (s, .notFound)
  | some leave_app =>
    if ¬(leave_app.status = .submitted ∨ leave_app.status = .pending_approval) then
      (s, .badRequest "Invalid status for approval")
    else
      let app' := { leave_app with
        status := .approved, approved_date := some now }
      ({ s with apps := saveRow (fun a => a.id == pk) app' s.apps }, .ok)

/-- Handler `LeaveApplicationViewSet.reject` (viewsets.py): requires status
`submitted` or `pending_approval`; sets status `rejected`, `rejected_date`
and `rejection_reason`, then subtracts `working_days` from the balance's
`pending_days` when a balance row exists. -/
def viewsetReject (s : LeaveState) (pk : Nat) (now : Nat) (reason : String) :
    LeaveState × HttpResult :=
  match findApp s.apps pk with
  | none => (s, .notFound)
  | some leave_app =>
    if ¬(leave_app.status = .submitted ∨ leave_app.status = .pending_approval) then
      (s, .badRequest "Invalid status for rejection")
    else
      let app' := { leave_app with
        status := .rejected, rejected_date := some now,
        rejection_reason := reason }
      let apps' := saveRow (fun a => a.id == pk) app' s.apps
      match findBalance s.balances leave_app.employee leave_app.leave_type
          leave_app.start_year with
      | some balance =>
        let balance' := { balance with
          pending_days := balance.pending_days - leave_app.working_days }
        ({ apps := apps',
           balances := saveRow
             (balanceKey leave_app.employee leave_app.leave_type
               leave_app.start_year) balance' s.balances }, .ok)
      | none => ({ s with apps := apps' }, .ok)

/-- Handler `leave_application_approve` (views.py): requires status `submitted` or
`pending_approval`; sets status `approved` and `approved_date`, then, when a
balance row exists, adds `working_days` to `taken_days`, subtracts it from
`pending_days` and recomputes
`closing_balance = opening + accrued + carried_forward - taken`. -/
def viewsApprove (s : LeaveState) (application_id : Nat) (now : Nat) :
    LeaveState × HttpResult :=
  match findApp s.apps application_id with
  | none => (s, .notFound)
  | some application =>
    if ¬(application.status = .submitted ∨ application.status = .pending_approval) then
      (s, .badRequest "This application cannot be approved.")
    else
      let app' := { application with
        status := .approved, approved_date := some now }
      let apps' := saveRow (fun a => a.id == application_id) app' s.apps
      match findBalance s.balances application.employee application.leave_type
          application.start_year with
      | some balance =>
        let taken' := balance.taken_days + application.working_days
        let balance' := { balance with
          taken_days := taken',
          pending_days := balance.pending_days - application.working_days,
          closing_balance := balance.opening_balance + balance.accrued_days +
            balance.carried_forward_days - taken' }
        ({ apps := apps',
           balances := saveRow
             (balanceKey application.employee application.leave_type
               application.start_year) balance' s.balances }, .ok)
      | none => ({ s with apps := apps' }, .ok)

/-- Handler `leave_application_reject` (views.py), POST branch: sets status
`rejected`, `rejected_date` and `rejection_reason`, then subtracts
`working_days` from the balance's `pending_days` when a balance row exists
(it performs no status precondition check). -/
def viewsReject (s : LeaveState) (application_id : Nat) (now : Nat)
    (reason : String) : LeaveState × HttpResult :=
  match findApp s.apps application_id with
  | none => (s, .notFound)
  | some application =>
    let app' := { application with
      status := .rejected, rejected_date := some now,
      rejection_reason := reason }
    let apps' := saveRow (fun a => a.id == application_id) app' s.apps
    match findBalance s.balances application.employee application.leave_type
        application.start_year with
    | some balance =>
      let balance' := { balance with
        pending_days := balance.pending_days - application.working_days }
      ({ apps := apps',
         balances := saveRow
           (balanceKey application.employee application.leave_type
             application.start_year) balance' s.balances }, .ok)
    | none => ({ s with apps := apps' }, .ok)

/-- The row produced by
`EmployeeLeaveBalance.objects.get_or_create(employee, leave_type, year)`
when no row exists: every `DecimalField` defaults to 0 and the accrual
dates are unset (models.py defaults). -/
def freshBalance (e t y : Nat) : EmployeeLeaveBalance :=
  { employee := e, leave_type := t, year := y,
    opening_balance := 0, accrued_days := 0, carried_forward_days := 0,
    adjustment_days := 0, taken_days := 0, pending_days := 0,
    encashed_days := 0, forfeited_days := 0, closing_balance := 0,
    last_accrual_date := none, next_accrual_date := none }

/-- The per-balance body of `EmployeeLeaveBalanceViewSet.accrue_monthly`
(viewsets.py): add the leave type's `accrual_rate` to `accrued_days` and
recompute `closing_balance = opening + accrued + carried_forward - taken`. -/
def accrueBalanceStep (balance : EmployeeLeaveBalance) (accrual_rate : Int)
    (today : Nat) : EmployeeLeaveBalance :=
  let accrued' := balance.accrued_days + accrual_rate
  { balance with
    accrued_days := accrued',
    closing_balance := balance.opening_balance + accrued' +
      balance.carried_forward_days - balance.taken_days,
    last_accrual_date := some today }

/-- Runs `get_or_create` followed by the accrual body and `save()` for one
(employee, leave type) pair: updates the existing row in place or appends
the freshly created one. -/
def accrueOne (bs : List EmployeeLeaveBalance) (e t : Nat) (rate : Int)
    (year today : Nat) : List EmployeeLeaveBalance :=
  match findBalance bs e t year with
  | some balance =>
    saveRow (balanceKey e t year) (accrueBalanceStep balance rate today) bs
  | none => bs ++ [accrueBalanceStep (freshBalance e t year) rate today]

/-- Handler `EmployeeLeaveBalanceViewSet.accrue_monthly` (viewsets.py): iterate all
active employees and active leave types (passed in as the results of the
two queryset evaluations, each leave type paired with its `accrual_rate`)
and run the accrual body for every pair in the current year. -/
def accrueMonthly (s : LeaveState) (employees : List Nat)
    (leave_types : List (Nat × Int)) (year today : Nat) : LeaveState :=
  { s with balances :=
      employees.foldl (fun bs e =>
        leave_types.foldl (fun bs' lt => accrueOne bs' e lt.1 lt.2 year today)
          bs) s.balances }

/-- Status choices of `PayrollPeriod` (models.py); `open_` embeds the choice
string `open` (a Lean keyword). -/
inductive PayrollStatus where
  | open_
  | processing
  | calculated
  | approved
  | paid
  | closed
deriving DecidableEq, Repr

/-- Model `PayrollPeriod` (models.py): the fields the embedded handlers read or
write, money totals as exact `Int` fixed-point values. -/
structure PayrollPeriod where
  id : Nat
  period_name : String
  status : PayrollStatus
  total_gross_pay : Int
  total_deductions : Int
  total_net_pay : Int
  employee_count : Nat
  processing_started_at : Option Nat
  approved_by : Option Nat
  approved_date : Option Nat
  locked : Bool
deriving DecidableEq, Repr

/-- Payment-status choices of `PayrollCalculation` (models.py). -/
inductive PaymentStatus where
  | pending
  | paid
  | failed
  | cancelled
deriving DecidableEq, Repr

/-- Model `PayrollCalculation` (models.py): one row per (employee, payroll
period), declared unique by `unique_together = ['employee',
'payroll_period']`; the aggregate money fields used by the claims. -/
structure PayrollCalculation where
  id : Nat
  employee : Nat
  payroll_period : Nat
  basic_salary : Int
  total_earnings : Int
  gross_pay : Int
  total_deductions : Int
  net_pay : Int
  payment_status : PaymentStatus
deriving DecidableEq, Repr

/-- Item-type choices of `PayrollCalculationDetail` (models.py). -/
inductive ItemType where
  | earning
  | deduction
deriving DecidableEq, Repr

/-- Model `PayrollCalculationDetail` (models.py): an itemised earning/deduction
line belonging to one calculation. -/
structure PayrollCalculationDetail where
  id : Nat
  payroll_calculation : Nat
  item_type : ItemType
  description : String
  amount : Int
deriving DecidableEq, Repr

/-- The payroll tables touched by the payroll endpoints. -/
structure PayrollState where
  periods : List PayrollPeriod
  calculations : List PayrollCalculation
  details : List PayrollCalculationDetail
deriving DecidableEq, Repr

/-- Lookup of a payroll period by primary key. -/
def findPeriod (ps : List PayrollPeriod) (pk : Nat) : Option PayrollPeriod :=
  ps.find? (fun p => p.id == pk)

/-- Lookup of a payroll calculation by primary key. -/
def findCalculation (cs : List PayrollCalculation) (pk : Nat) :
    Option PayrollCalculation :=
  cs.find? (fun c => c.id == pk)

/-- Handler `PayrollPeriodViewSet.process` (viewsets.py): requires status `open` or
`processing`; sets status `processing` and `processing_started_at`.  The
gross/tax/net computation is a literal TODO stub, so no calculation row is
created and the status never advances to `calculated` here. -/
def payrollProcess (s : PayrollState) (pk : Nat) (now : Nat) :
    PayrollState × HttpResult :=
  match findPeriod s.periods pk with
  | none => (s, .notFound)
  | some period =>
    if ¬(period.status = .open_ ∨ period.status = .processing) then
      (s, .badRequest "Period is not open for processing")
    else
      let period' := { period with
        status := .processing, processing_started_at := some now }
      ({ s with periods := saveRow (fun p => p.id == pk) period' s.periods },
        .ok)

/-- Handler `PayrollPeriodViewSet.approve` (viewsets.py): requires status
`calculated`; sets status `approved`, `approved_by` (the requesting user)
and `approved_date` (today). -/
def payrollApprove (s : PayrollState) (pk : Nat) (user : Nat) (today : Nat) :
    PayrollState × HttpResult :=
  match findPeriod s.periods pk with
  | none => (s, .notFound)
  | some period =>
    if period.status ≠ .calculated then
      (s, .badRequest "Period must be calculated before approval")
    else
      let period' := { period with
        status := .approved, approved_by := some user,
        approved_date := some today }
      ({ s with periods := saveRow (fun p => p.id == pk) period' s.periods },
        .ok)

/-- Handler `payroll_period_detail` (views.py): `get_object_or_404` on the period
id, then a read-only render of its calculations and summary. -/
def payrollPeriodDetailView (s : PayrollState) (period_id : Nat) :
    PayrollState × HttpResult :=
  match findPeriod s.periods period_id with
  | none => (s, .notFound)
  | some _ => (s, .ok)

/-- Handler `PayrollCalculationViewSet.breakdown` (viewsets.py): `get_object` on the
calculation id, then a read-only breakdown of its detail lines. -/
def payrollBreakdownView (s : PayrollState) (pk : Nat) :
    PayrollState × HttpResult :=
  match findCalculation s.calculations pk with
  | none => (s, .notFound)
  | some _ => (s, .ok)

/-- Direct insertion of a `PayrollCalculation` row (no HTTP endpoint of the
app creates one; this embeds the database write path): the relational
constraint declared by `unique_together = ['employee', 'payroll_period']`
in the model's `Meta` rejects a row whose (employee, period) key already
exists. -/
def insertCalculation (s : PayrollState) (c : PayrollCalculation) :
    PayrollState × HttpResult :=
  if s.calculations.any (fun c0 =>
      c0.employee == c.employee && c0.payroll_period == c.payroll_period) then
    (s, .badRequest "IntegrityError: duplicate key value violates unique constraint")
  else
    ({ s with calculations := c :: s.calculations }, .ok)

/-- The whole embedded store. -/
structure AppState where
  leave : LeaveState
  payroll : PayrollState
deriving DecidableEq, Repr

/-- The mutating HTTP operations of the embedded app (viewsets.py and
views.py handlers over the leave and payroll tables), each carrying its
request arguments. -/
inductive Operation where
  | leaveSubmit (pk now : Nat)
  | leaveApproveApi (pk now : Nat)
  | leaveRejectApi (pk now : Nat) (reason : String)
  | leaveApproveView (application_id now : Nat)
  | leaveRejectView (application_id now : Nat) (reason : String)
  | accrueMonthlyOp (employees : List Nat) (leave_types : List (Nat × Int))
      (year today : Nat)
  | periodProcess (pk now : Nat)
  | periodApprove (pk user today : Nat)
  | periodDetail (period_id : Nat)
  | calculationBreakdown (pk : Nat)

/-- Dispatch one HTTP operation against the store. -/
def applyOp (s : AppState) (op : Operation) : AppState :=
  match op with
  | .leaveSubmit pk now => { s with leave := (viewsetSubmit s.leave pk now).1 }
  | .leaveApproveApi pk now =>
    { s with leave := (viewsetApprove s.leave pk now).1 }
  | .leaveRejectApi pk now reason =>
    { s with leave := (viewsetReject s.leave pk now reason).1 }
  | .leaveApproveView application_id now =>
    { s with leave := (viewsApprove s.leave application_id now).1 }
  | .leaveRejectView application_id now reason =>
    { s with leave := (viewsReject s.leave application_id now reason).1 }
  | .accrueMonthlyOp employees leave_types year today =>
    { s with leave := accrueMonthly s.leave employees leave_types year today }
  | .periodProcess pk now =>
    { s with payroll := (payrollProcess s.payroll pk now).1 }
  | .periodApprove pk user today =>
    { s with payroll := (payrollApprove s.payroll pk user today).1 }
  | .periodDetail period_id =>
    { s with payroll := (payrollPeriodDetailView s.payroll period_id).1 }
  | .calculationBreakdown pk =>
    { s with payroll := (payrollBreakdownView s.payroll pk).1 }

/-- The two exposed payroll-period transition actions, for sequencing. -/
inductive PayrollAction where
  | processAct (pk now : Nat)
  | approveAct (pk user today : Nat)

/-- Run one payroll-period action. -/
def stepPayroll (s : PayrollState) (a : PayrollAction) : PayrollState :=
  match a with
  | .processAct pk now => (payrollProcess s pk now).1
  | .approveAct pk user today => (payrollApprove s pk user today).1

/-- Run a sequence of payroll-period actions. -/
def runPayroll (s : PayrollState) : List PayrollAction → PayrollState
  | [] => s
  | a :: as_ => runPayroll (stepPayroll s a) as_

/-- At most one calculation row per (employee, payroll period): the
uniqueness invariant declared by the model's `unique_together`. -/
def calcUnique (cs : List PayrollCalculation) : Prop :=
  cs.Pairwise (fun a b =>
    ¬(a.employee = b.employee ∧ a.payroll_period = b.payroll_period))

/-- Sum of the amounts of the detail lines of calculation `c` with the given
item type (the aggregation behind `breakdown`). -/
def detailSum (ds : List PayrollCalculationDetail) (c : Nat) (t : ItemType) :
    Int :=
  (ds.filter (fun d => d.payroll_calculation == c && d.item_type == t)).foldr
    (fun d acc => d.amount + acc) 0

/-- The detail lines of every calculation sum to its aggregate fields:
earnings to `total_earnings`, deductions to `total_deductions`. -/
def detailSumsOk (p : PayrollState) : Prop :=
  ∀ c ∈ p.calculations,
    detailSum p.details c.id .earning = c.total_earnings ∧
    detailSum p.details c.id .deduction = c.total_deductions

/-- The balance invariant stated by the spec:
`closing = opening + accrued + carried_forward - taken - encashed -
forfeited`. -/
def specClosingInvariant (b : EmployeeLeaveBalance) : Prop :=
  b.closing_balance = b.opening_balance + b.accrued_days +
    b.carried_forward_days - b.taken_days - b.encashed_days - b.forfeited_days

/-- The balance formula the code actually writes on every recompute:
`closing = opening + accrued + carried_forward - taken`. -/
def codeClosingFormula (b : EmployeeLeaveBalance) : Prop :=
  b.closing_balance = b.opening_balance + b.accrued_days +
    b.carried_forward_days - b.taken_days

/-! ### Helper lemmas -/

theorem mem_saveRow {α : Type} (key : α → Bool) (r' : α) (l : List α) (q : α)
    (hq : q ∈ saveRow key r' l) : q = r' ∨ q ∈ l := by
  induction l with
  | nil => simp [saveRow] at hq
  | cons r rs ih =>
    simp only [saveRow] at hq
    by_cases h : key r = true
    · simp only [h, if_true] at hq
      rcases List.mem_cons.mp hq with h1 | h1
      · exact Or.inl h1
      · exact Or.inr (List.mem_cons_of_mem _ h1)
    · simp only [h, if_false] at hq
      rcases List.mem_cons.mp hq with h1 | h1
      · exact Or.inr (h1 ▸ List.mem_cons_self r rs)
      · rcases ih h1 with h2 | h2
        · exact Or.inl h2
        · exact Or.inr (List.mem_cons_of_mem _ h2)

theorem find?_saveRow_self {α : Type} (p : α → Bool) (r' : α) (l : List α)
    (hp : p r' = true) (x : α) (hx : l.find? p = some x) :
    (saveRow p r' l).find? p = some r' := by
  induction l with
  | nil => simp at hx
  | cons r rs ih =>
    by_cases h : p r = true
    · simp [saveRow, h, List.find?, hp]
    · have h' : p r = false := by simpa using h
      simp only [List.find?, h'] at hx
      simp only [saveRow, h', Bool.false_eq_true, if_false, List.find?]
      exact ih hx

/-! ### C2: submit with an existing balance row -/

/-- C2.  For a draft application with a balance row for (employee, leave
type, start-date year), `LeaveApplicationViewSet.submit` fails with the
insufficient-balance error iff `closing_balance - pending_days <
working_days`, leaving the whole store unchanged on failure; otherwise it
marks the application `submitted` (recording `submitted_date`) and adds
`working_days` to the balance's `pending_days`, changing nothing else. -/
theorem leave_submit_balance_check (s : LeaveState) (pk now : Nat)
    (app : LeaveApplication) (b : EmployeeLeaveBalance)
    (happ : findApp s.apps pk = some app) (hdraft : app.status = .draft)
    (hbal : findBalance s.balances app.employee app.leave_type app.start_year
      = some b) :
    if b.closing_balance - b.pending_days < app.working_days then
      viewsetSubmit s pk now = (s, .badRequest "Insufficient leave balance")
    else
      viewsetSubmit s pk now =
        ({ apps := saveRow (fun a => a.id == pk)
             { app with status := .submitted, submitted_date := some now }
             s.apps,
           balances := saveRow
             (balanceKey app.employee app.leave_type app.start_year)
             { b with pending_days := b.pending_days + app.working_days }
             s.balances }, .ok) := by
  simp only [viewsetSubmit, happ, hbal, hdraft]
  split <;> simp

/-- Witness for C2 at a concrete store: a draft application for 3 days
against a balance with 5 available days successfully submits. -/
theorem leave_submit_balance_check_witness :
    viewsetSubmit
      { apps := [{ id := 1, employee := 7, leave_type := 2, start_year := 2024,
                   working_days := 3, status := .draft, submitted_date := none,
                   approved_date := none, rejected_date := none,
                   rejection_reason := "" }],
        balances := [{ employee := 7, leave_type := 2, year := 2024,
                       opening_balance := 5, accrued_days := 0,
                       carried_forward_days := 0, adjustment_days := 0,
                       taken_days := 0, pending_days := 0, encashed_days := 0,
                       forfeited_days := 0, closing_balance := 5,
                       last_accrual_date := none, next_accrual_date := none }] }
      1 99 =
    ({ apps := [{ id := 1, employee := 7, leave_type := 2, start_year := 2024,
                  working_days := 3, status := .submitted,
                  submitted_date := some 99, approved_date := none,
                  rejected_date := none, rejection_reason := "" }],
       balances := [{ employee := 7, leave_type := 2, year := 2024,
                      opening_balance := 5, accrued_days := 0,
                      carried_forward_days := 0, adjustment_days := 0,
                      taken_days := 0, pending_days := 3, encashed_days := 0,
                      forfeited_days := 0, closing_balance := 5,
                      last_accrual_date := none, next_accrual_date := none }] },
      .ok) := by
  have h := leave_submit_balance_check
    { apps := [{ id := 1, employee := 7, leave_type := 2, start_year := 2024,
                 working_days := 3, status := .draft, submitted_date := none,
                 approved_date := none, rejected_date := none,
                 rejection_reason := "" }],
      balances := [{ employee := 7, leave_type := 2, year := 2024,
                     opening_balance := 5, accrued_days := 0,
                     carried_forward_days := 0, adjustment_days := 0,
                     taken_days := 0, pending_days := 0, encashed_days := 0,
                     forfeited_days := 0, closing_balance := 5,
                     last_accrual_date := none, next_accrual_date := none }] }
    1 99 _ _ rfl rfl rfl
  rw [if_neg (by decide)] at h
  rw [h]
  rfl

/-! ### C10: submit with no balance row -/

/-- C10.  For a draft application with no balance row for (employee, leave
type, start-date year), `LeaveApplicationViewSet.submit` skips the balance
check entirely: it succeeds for any `working_days`, marks the application
`submitted`, and neither creates nor modifies any balance row. -/
theorem leave_submit_without_balance (s : LeaveState) (pk now : Nat)
    (app : LeaveApplication)
    (happ : findApp s.apps pk = some app) (hdraft : app.status = .draft)
    (hbal : findBalance s.balances app.employee app.leave_type app.start_year
      = none) :
    viewsetSubmit s pk now =
      ({ s with
          apps := saveRow (fun a => a.id == pk)
                    ({ app with status := .submitted,
                                submitted_date := some now }) s.apps },
        .ok) ∧
    (viewsetSubmit s pk now).1.balances = s.balances := by
  constructor
  · simp only [viewsetSubmit, happ, hbal, hdraft]
    simp
  · simp only [viewsetSubmit, happ, hbal, hdraft]
    simp

/-- Witness for C10: a draft application for 1000 days with no balance row
submits successfully and the balance table stays empty. -/
theorem leave_submit_without_balance_witness :
    viewsetSubmit
      { apps := [{ id := 4, employee := 9, leave_type := 3, start_year := 2025,
                   working_days := 1000, status := .draft,
                   submitted_date := none, approved_date := none,
                   rejected_date := none, rejection_reason := "" }],
        balances := [] } 4 11 =
      ({ apps := [{ id := 4, employee := 9, leave_type := 3, start_year := 2025,
                    working_days := 1000, status := .submitted,
                    submitted_date := some 11, approved_date := none,
                    rejected_date := none, rejection_reason := "" }],
         balances := [] }, .ok) := by
  have h := leave_submit_without_balance
    { apps := [{ id := 4, employee := 9, leave_type := 3, start_year := 2025,
                 working_days := 1000, status := .draft,
                 submitted_date := none, approved_date := none,
                 rejected_date := none, rejection_reason := "" }],
      balances := [] } 4 11 _ rfl rfl rfl
  rw [h.1]
  rfl

/-! ### C1: what approve does to the balance -/

/-- A submitted 2-day application (pk 1) used as concrete input. -/
def exApp1 : LeaveApplication :=
  { id := 1, employee := 1, leave_type := 1, start_year := 2024,
    working_days := 2, status := .submitted, submitted_date := some 1,
    approved_date := none, rejected_date := none, rejection_reason := "" }

/-- Its balance row: 10 days available, 2 pending, none taken. -/
def exBal1 : EmployeeLeaveBalance :=
  { employee := 1, leave_type := 1, year := 2024, opening_balance := 10,
    accrued_days := 0, carried_forward_days := 0, adjustment_days := 0,
    taken_days := 0, pending_days := 2, encashed_days := 0,
    forfeited_days := 0, closing_balance := 10,
    last_accrual_date := none, next_accrual_date := none }

/-- The store holding just that application and balance. -/
def exLeaveState1 : LeaveState := { apps := [exApp1], balances := [exBal1] }

/-- C1 counterexample.  The REST endpoint `LeaveApplicationViewSet.approve`
succeeds on a submitted application with an existing balance row and marks
it approved, yet leaves the balance row completely unchanged: `taken_days`
stays 0 although the claim requires it to grow by the application's 2
working days (and `pending_days` stays 2, `closing_balance` stays 10). -/
theorem leave_approve_api_ignores_balance_cex :
    (viewsetApprove exLeaveState1 1 5).2 = .ok ∧
    (viewsetApprove exLeaveState1 1 5).1.balances = [exBal1] ∧
    (findApp (viewsetApprove exLeaveState1 1 5).1.apps 1).map
      LeaveApplication.status = some .approved ∧
    exBal1.taken_days = 0 ∧ exApp1.working_days = 2 ∧
    exBal1.taken_days ≠ exBal1.taken_days + exApp1.working_days := by
  decide

/-- C1 amended.  Of the two approve handlers, only the function-based view
`leave_application_approve` (views.py) updates the balance as claimed:
status `approved`, `taken_days + working_days`,
`pending_days - working_days`, recomputed `closing_balance`.  The REST
endpoint `LeaveApplicationViewSet.approve` (viewsets.py) only sets status
`approved` and `approved_date`, leaving every balance row unchanged. -/
theorem leave_approve_amended (s : LeaveState) (pk now : Nat)
    (app : LeaveApplication) (b : EmployeeLeaveBalance)
    (happ : findApp s.apps pk = some app)
    (hstat : app.status = .submitted ∨ app.status = .pending_approval)
    (hbal : findBalance s.balances app.employee app.leave_type app.start_year
      = some b) :
    viewsApprove s pk now =
      ({ apps := saveRow (fun a => a.id == pk)
           ({ app with status := .approved, approved_date := some now })
           s.apps,
         balances := saveRow
           (balanceKey app.employee app.leave_type app.start_year)
           ({ b with taken_days := b.taken_days + app.working_days,
                     pending_days := b.pending_days - app.working_days,
                     closing_balance := b.opening_balance + b.accrued_days +
                       b.carried_forward_days -
                       (b.taken_days + app.working_days) }) s.balances },
        .ok) ∧
    viewsetApprove s pk now =
      ({ s with
          apps := saveRow (fun a => a.id == pk)
                    ({ app with status := .approved,
                                approved_date := some now }) s.apps },
        .ok) := by
  constructor
  · simp only [viewsApprove, happ]
    rw [if_neg (not_not_intro hstat)]
    simp only [hbal]
  · simp only [viewsetApprove, happ]
    rw [if_neg (not_not_intro hstat)]

/-- Witness for the amended C1 at the concrete store: the view-based approve
moves 2 days from pending to taken and recomputes the closing balance to 8,
while the REST approve leaves the balance row untouched. -/
theorem leave_approve_amended_witness :
    (viewsApprove exLeaveState1 1 5).1.balances =
      [{ employee := 1, leave_type := 1, year := 2024, opening_balance := 10,
         accrued_days := 0, carried_forward_days := 0, adjustment_days := 0,
         taken_days := 2, pending_days := 0, encashed_days := 0,
         forfeited_days := 0, closing_balance := 8,
         last_accrual_date := none, next_accrual_date := none }] ∧
    (viewsetApprove exLeaveState1 1 5).1.balances = [exBal1] := by
  have h := leave_approve_amended exLeaveState1 1 5 exApp1 exBal1 rfl
    (Or.inl rfl) rfl
  constructor
  · rw [h.1]
    rfl
  · rw [h.2]
    rfl

/-! ### C4: reject -/

/-- C4.  For an application in status `submitted` or `pending_approval`,
both reject handlers (`LeaveApplicationViewSet.reject`, viewsets.py, and
`leave_application_reject`, views.py) set status `rejected`, record the
supplied `rejection_reason` (and `rejected_date`), and, when a balance row
exists for (employee, leave type, start-date year), subtract
`working_days` from its `pending_days` while leaving `taken_days`,
`closing_balance` and every other balance field unchanged; with no balance
row only the application changes. -/
theorem leave_reject_spec (s : LeaveState) (pk now : Nat) (reason : String)
    (app : LeaveApplication)
    (happ : findApp s.apps pk = some app)
    (hstat : app.status = .submitted ∨ app.status = .pending_approval) :
    (∀ b, findBalance s.balances app.employee app.leave_type app.start_year
        = some b →
      viewsetReject s pk now reason =
        ({ apps := saveRow (fun a => a.id == pk)
             ({ app with status := .rejected, rejected_date := some now,
                         rejection_reason := reason }) s.apps,
           balances := saveRow
             (balanceKey app.employee app.leave_type app.start_year)
             ({ b with pending_days := b.pending_days - app.working_days })
             s.balances }, .ok) ∧
      viewsReject s pk now reason =
        ({ apps := saveRow (fun a => a.id == pk)
             ({ app with status := .rejected, rejected_date := some now,
                         rejection_reason := reason }) s.apps,
           balances := saveRow
             (balanceKey app.employee app.leave_type app.start_year)
             ({ b with pending_days := b.pending_days - app.working_days })
             s.balances }, .ok)) ∧
    (findBalance s.balances app.employee app.leave_type app.start_year = none →
      viewsetReject s pk now reason =
        ({ s with
            apps := saveRow (fun a => a.id == pk)
                      ({ app with status := .rejected,
                                  rejected_date := some now,
                                  rejection_reason := reason }) s.apps },
          .ok) ∧
      viewsReject s pk now reason =
        ({ s with
            apps := saveRow (fun a => a.id == pk)
                      ({ app with status := .rejected,
                                  rejected_date := some now,
                                  rejection_reason := reason }) s.apps },
          .ok)) := by
  constructor
  · intro b hbal
    constructor
    · simp only [viewsetReject, happ]
      rw [if_neg (not_not_intro hstat)]
      simp only [hbal]
    · simp only [viewsReject, happ]
      simp only [hbal]
  · intro hnone
    constructor
    · simp only [viewsetReject, happ]
      rw [if_neg (not_not_intro hstat)]
      simp only [hnone]
    · simp only [viewsReject, happ]
      simp only [hnone]

/-- Witness for C4 at the concrete store of `exLeaveState1`: rejecting the
submitted 2-day application records the reason and drops `pending_days`
from 2 to 0 by both handlers, with `taken_days` and `closing_balance`
untouched. -/
theorem leave_reject_spec_witness :
    (viewsetReject exLeaveState1 1 6 "no cover").1.balances =
      [{ exBal1 with pending_days := 0 }] ∧
    (viewsReject exLeaveState1 1 6 "no cover").1.balances =
      [{ exBal1 with pending_days := 0 }] ∧
    (findApp (viewsetReject exLeaveState1 1 6 "no cover").1.apps 1).map
      LeaveApplication.rejection_reason = some "no cover" := by
  have h := (leave_reject_spec exLeaveState1 1 6 "no cover" exApp1 rfl
    (Or.inl rfl)).1 exBal1 rfl
  refine ⟨?_, ?_, ?_⟩
  · rw [h.1]
    rfl
  · rw [h.2]
    rfl
  · rw [h.1]
    rfl

/-! ### C3: the closing-balance formula written by the code -/

/-- A balance row with one encashed day and everything else zero. -/
def exBal2 : EmployeeLeaveBalance :=
  { employee := 2, leave_type := 1, year := 2024, opening_balance := 0,
    accrued_days := 0, carried_forward_days := 0, adjustment_days := 0,
    taken_days := 0, pending_days := 0, encashed_days := 1,
    forfeited_days := 0, closing_balance := 0,
    last_accrual_date := none, next_accrual_date := none }

/-- C3 counterexample.  After a monthly accrual of 2 days on a balance
with `encashed_days = 1`, the spec's invariant
`closing = opening + accrued + carried_forward - taken - encashed -
forfeited` fails: the code writes `closing = 2` where the invariant
demands `1`, because the recompute never subtracts encashed or forfeited
days. -/
theorem leave_closing_invariant_cex :
    ¬ specClosingInvariant (accrueBalanceStep exBal2 2 7) := by
  unfold specClosingInvariant accrueBalanceStep exBal2
  decide

/-- C3 amended.  Every closing-balance recompute in the code (the monthly
accrual body and the balance write of `leave_application_approve`) uses
`closing = opening + accrued + carried_forward - taken`; the spec's
invariant additionally subtracting encashed and forfeited days holds after
a recompute exactly when `encashed_days + forfeited_days = 0`. -/
theorem leave_closing_recompute_amended (b : EmployeeLeaveBalance)
    (rate : Int) (today : Nat) (s : LeaveState) (pk now : Nat)
    (app : LeaveApplication) (bal : EmployeeLeaveBalance)
    (happ : findApp s.apps pk = some app)
    (hstat : app.status = .submitted ∨ app.status = .pending_approval)
    (hbal : findBalance s.balances app.employee app.leave_type app.start_year
      = some bal) :
    codeClosingFormula (accrueBalanceStep b rate today) ∧
    (specClosingInvariant (accrueBalanceStep b rate today) ↔
      b.encashed_days + b.forfeited_days = 0) ∧
    ∀ b', findBalance (viewsApprove s pk now).1.balances app.employee
        app.leave_type app.start_year = some b' → codeClosingFormula b' := by
  refine ⟨rfl, ?_, ?_⟩
  · simp only [specClosingInvariant, accrueBalanceStep]
    omega
  · intro b' hb'
    simp only [viewsApprove, happ] at hb'
    rw [if_neg (not_not_intro hstat)] at hb'
    simp only [hbal] at hb'
    unfold findBalance at hb'
    have h0 : balanceKey app.employee app.leave_type app.start_year bal = true :=
      List.find?_some hbal
    have hkey : balanceKey app.employee app.leave_type app.start_year
        ({ bal with taken_days := bal.taken_days + app.working_days,
                    pending_days := bal.pending_days - app.working_days,
                    closing_balance := bal.opening_balance + bal.accrued_days +
                      bal.carried_forward_days -
                      (bal.taken_days + app.working_days) }) = true := h0
    rw [find?_saveRow_self (balanceKey app.employee app.leave_type
      app.start_year)
      ({ bal with taken_days := bal.taken_days + app.working_days,
                  pending_days := bal.pending_days - app.working_days,
                  closing_balance := bal.opening_balance + bal.accrued_days +
                    bal.carried_forward_days -
                    (bal.taken_days + app.working_days) })
      s.balances hkey bal hbal] at hb'
    cases hb'
    rfl

/-- Witness for the amended C3: the accrual on `exBal2` obeys the code's
formula but not the spec's (one encashed day), and the balance written by
the approve view at the concrete store obeys the code's formula. -/
theorem leave_closing_recompute_amended_witness :
    codeClosingFormula (accrueBalanceStep exBal2 2 7) ∧
    (specClosingInvariant (accrueBalanceStep exBal2 2 7) ↔
      exBal2.encashed_days + exBal2.forfeited_days = 0) ∧
    codeClosingFormula ({ exBal1 with taken_days := 2,
                                      pending_days := 0,
                                      closing_balance := 8 }) := by
  have h := leave_closing_recompute_amended exBal2 2 7 exLeaveState1 1 5
    exApp1 exBal1 rfl (Or.inl rfl) rfl
  exact ⟨h.1, h.2.1, h.2.2 _ rfl⟩

/-! ### C5: the payroll period lifecycle never advances past processing -/

/-- Every period row carrying id `i` is still `open` or `processing`. -/
def openProcInv (ps : List PayrollPeriod) (i : Nat) : Prop :=
  ∀ q ∈ ps, q.id = i → q.status = .open_ ∨ q.status = .processing

theorem openProcInv_step (s : PayrollState) (i : Nat) (a : PayrollAction)
    (h : openProcInv s.periods i) : openProcInv (stepPayroll s a).periods i := by
  cases a with
  | processAct pk now =>
    simp only [stepPayroll, payrollProcess]
    cases hf : findPeriod s.periods pk with
    | none => exact h
    | some period =>
      dsimp only
      split
      · exact h
      · intro q hq hqi
        rcases mem_saveRow _ _ _ _ hq with rfl | hmem
        · exact Or.inr rfl
        · exact h q hmem hqi
  | approveAct pk user today =>
    simp only [stepPayroll, payrollApprove]
    cases hf : findPeriod s.periods pk with
    | none => exact h
    | some period =>
      dsimp only
      split
      · exact h
      · intro q hq hqi
        rcases mem_saveRow _ _ _ _ hq with rfl | hmem
        · exfalso
          have hmemp : period ∈ s.periods := List.mem_of_find?_eq_some hf
          have hcalc : period.status = .calculated := by
            by_contra hne
            exact absurd hne (by assumption)
          rcases h period hmemp hqi with h1 | h1 <;>
            rw [h1] at hcalc <;> exact PayrollStatus.noConfusion hcalc
        · exact h q hmem hqi

theorem openProcInv_run (s : PayrollState) (i : Nat)
    (acts : List PayrollAction) (h : openProcInv s.periods i) :
    openProcInv (runPayroll s acts).periods i := by
  induction acts generalizing s with
  | nil => exact h
  | cons a rest ih => exact ih (stepPayroll s a) (openProcInv_step s i a h)

/-- C5.  A payroll period that is `open` (ids being distinct, as for any
database primary key) can never reach `calculated`, `approved`, `paid` or
`closed` through any sequence of invocations of the two exposed transition
actions: `process` only ever moves it to `processing` (the calculation
logic is a stub that creates nothing and never sets `calculated`) and
`approve` refuses every status other than `calculated`. -/
theorem payroll_period_never_calculated (s : PayrollState) (pk : Nat)
    (p : PayrollPeriod)
    (hnd : (s.periods.map PayrollPeriod.id).Nodup)
    (hp : findPeriod s.periods pk = some p) (hopen : p.status = .open_)
    (acts : List PayrollAction) (q : PayrollPeriod)
    (hq : findPeriod (runPayroll s acts).periods pk = some q) :
    (q.status = .open_ ∨ q.status = .processing) ∧
    q.status ≠ .calculated ∧ q.status ≠ .approved ∧
    q.status ≠ .paid ∧ q.status ≠ .closed := by
  have hpmem : p ∈ s.periods := List.mem_of_find?_eq_some hp
  have hpid : p.id = pk := by simpa using List.find?_some hp
  have hinv : openProcInv s.periods pk := by
    intro r hr hri
    have hrp : r = p :=
      List.inj_on_of_nodup_map hnd hr hpmem (by rw [hri, hpid])
    rw [hrp, hopen]
    exact Or.inl rfl
  have hrun := openProcInv_run s pk acts hinv
  have hqmem : q ∈ (runPayroll s acts).periods := List.mem_of_find?_eq_some hq
  have hqid : q.id = pk := by simpa using List.find?_some hq
  have hq2 := hrun q hqmem hqid
  refine ⟨hq2, ?_, ?_, ?_, ?_⟩ <;> rcases hq2 with h1 | h1 <;> simp [h1]

/-- Witness for C5: one open period, then `process` followed by two
`approve` attempts and another `process`; the period ends `processing`. -/
theorem payroll_period_never_calculated_witness :
    ((runPayroll
        { periods := [{ id := 1, period_name := "2024-01",
                        status := .open_, total_gross_pay := 0,
                        total_deductions := 0, total_net_pay := 0,
                        employee_count := 0, processing_started_at := none,
                        approved_by := none, approved_date := none,
                        locked := false }],
          calculations := [], details := [] }
        [.processAct 1 5, .approveAct 1 2 6, .approveAct 1 3 7,
         .processAct 1 8]).periods.map PayrollPeriod.status)
      = [.processing] := by
  have h := payroll_period_never_calculated
    { periods := [{ id := 1, period_name := "2024-01",
                    status := .open_, total_gross_pay := 0,
                    total_deductions := 0, total_net_pay := 0,
                    employee_count := 0, processing_started_at := none,
                    approved_by := none, approved_date := none,
                    locked := false }],
      calculations := [], details := [] } 1 _ (by decide) rfl rfl
    [.processAct 1 5, .approveAct 1 2 6, .approveAct 1 3 7, .processAct 1 8]
    _ rfl
  rcases h.1 with h1 | h1
  · exact absurd h1 (by decide)
  · rw [show (runPayroll
        { periods := [{ id := 1, period_name := "2024-01",
                        status := .open_, total_gross_pay := 0,
                        total_deductions := 0, total_net_pay := 0,
                        employee_count := 0, processing_started_at := none,
                        approved_by := none, approved_date := none,
                        locked := false }],
          calculations := [], details := [] }
        [.processAct 1 5, .approveAct 1 2 6, .approveAct 1 3 7,
         .processAct 1 8]).periods =
      [{ id := 1, period_name := "2024-01",
         status := .processing, total_gross_pay := 0,
         total_deductions := 0, total_net_pay := 0,
         employee_count := 0, processing_started_at := some 8,
         approved_by := none, approved_date := none,
         locked := false }] from rfl]
    rfl

/-! ### C6: approve succeeds exactly on a calculated period -/

/-- C6.  `PayrollPeriodViewSet.approve` succeeds iff the period's status is
`calculated`; on success it sets status `approved` and records
`approved_by` and `approved_date` (every other field kept by the record
update); on failure it returns the error response and the store — hence
every field of the period — is unchanged. -/
theorem payroll_approve_iff_calculated (s : PayrollState)
    (pk user today : Nat) (p : PayrollPeriod)
    (hp : findPeriod s.periods pk = some p) :
    ((payrollApprove s pk user today).2 = .ok ↔ p.status = .calculated) ∧
    (p.status = .calculated →
      payrollApprove s pk user today =
        ({ s with
            periods := saveRow (fun q => q.id == pk)
                         ({ p with status := .approved,
                                   approved_by := some user,
                                   approved_date := some today })
                         s.periods },
          .ok)) ∧
    (p.status ≠ .calculated →
      payrollApprove s pk user today =
        (s, .badRequest "Period must be calculated before approval")) := by
  by_cases hc : p.status = .calculated
  · simp only [payrollApprove, hp]
    rw [if_neg (not_not_intro hc)]
    exact ⟨by simp [hc], fun _ => rfl, fun h => absurd hc h⟩
  · simp only [payrollApprove, hp]
    rw [if_pos hc]
    exact ⟨by simp [hc], fun h => absurd h hc, fun _ => rfl⟩

/-- A calculated period and the store holding only it. -/
def exPeriodCalc : PayrollPeriod :=
  { id := 1, period_name := "2024-01", status := .calculated,
    total_gross_pay := 100, total_deductions := 25, total_net_pay := 75,
    employee_count := 3, processing_started_at := some 2,
    approved_by := none, approved_date := none, locked := false }

/-- Store with one calculated payroll period. -/
def exPayrollCalcState : PayrollState :=
  { periods := [exPeriodCalc], calculations := [], details := [] }

/-- Witness for C6: approving the calculated period records user 42 and
date 99 and marks it approved. -/
theorem payroll_approve_iff_calculated_witness :
    payrollApprove exPayrollCalcState 1 42 99 =
      ({ exPayrollCalcState with
          periods := [({ exPeriodCalc with status := .approved,
                                           approved_by := some 42,
                                           approved_date := some 99 })] },
        .ok) := by
  have h := payroll_approve_iff_calculated exPayrollCalcState 1 42 99
    exPeriodCalc rfl
  rw [h.2.1 rfl]
  rfl

/-! ### C9: missing ids give 404 and change nothing -/

/-- C9.  Every modelled single-object handler keyed by an id — the five
leave handlers, payroll `process`/`approve`, the payroll-period detail page
and the calculation breakdown — returns 404 on an id matching no row and
leaves the whole store unchanged. -/
theorem missing_id_returns_404 (sL : LeaveState) (sP : PayrollState)
    (pk pid cid now user today : Nat) (reason : String)
    (hA : findApp sL.apps pk = none)
    (hP : findPeriod sP.periods pid = none)
    (hC : findCalculation sP.calculations cid = none) :
    viewsetSubmit sL pk now = (sL, .notFound) ∧
    viewsetApprove sL pk now = (sL, .notFound) ∧
    viewsetReject sL pk now reason = (sL, .notFound) ∧
    viewsApprove sL pk now = (sL, .notFound) ∧
    viewsReject sL pk now reason = (sL, .notFound) ∧
    payrollProcess sP pid now = (sP, .notFound) ∧
    payrollApprove sP pid user today = (sP, .notFound) ∧
    payrollPeriodDetailView sP pid = (sP, .notFound) ∧
    payrollBreakdownView sP cid = (sP, .notFound) := by
  refine ⟨?_, ?_, ?_, ?_, ?_, ?_, ?_, ?_, ?_⟩ <;>
    simp [viewsetSubmit, viewsetApprove, viewsetReject, viewsApprove,
      viewsReject, payrollProcess, payrollApprove, payrollPeriodDetailView,
      payrollBreakdownView, hA, hP, hC]

/-- Witness for C9 on empty stores with id 1 everywhere. -/
theorem missing_id_returns_404_witness :
    viewsetSubmit { apps := [], balances := [] } 1 0 =
      ({ apps := [], balances := [] }, .notFound) ∧
    payrollApprove { periods := [], calculations := [], details := [] } 1 0 0 =
      ({ periods := [], calculations := [], details := [] }, .notFound) := by
  have h := missing_id_returns_404 { apps := [], balances := [] }
    { periods := [], calculations := [], details := [] }
    1 1 1 0 0 0 "x" rfl rfl rfl
  exact ⟨h.1, h.2.2.2.2.2.2.1⟩

/-! ### C7 / C8: the calculation tables under the exposed operations -/

theorem applyOp_tables (s : AppState) (op : Operation) :
    (applyOp s op).payroll.calculations = s.payroll.calculations ∧
    (applyOp s op).payroll.details = s.payroll.details := by
  cases op with
  | leaveSubmit pk now => exact ⟨rfl, rfl⟩
  | leaveApproveApi pk now => exact ⟨rfl, rfl⟩
  | leaveRejectApi pk now reason => exact ⟨rfl, rfl⟩
  | leaveApproveView application_id now => exact ⟨rfl, rfl⟩
  | leaveRejectView application_id now reason => exact ⟨rfl, rfl⟩
  | accrueMonthlyOp employees leave_types year today => exact ⟨rfl, rfl⟩
  | periodProcess pk now =>
    simp only [applyOp, payrollProcess]
    cases findPeriod s.payroll.periods pk with
    | none => exact ⟨rfl, rfl⟩
    | some p =>
      dsimp only
      split <;> exact ⟨rfl, rfl⟩
  | periodApprove pk user today =>
    simp only [applyOp, payrollApprove]
    cases findPeriod s.payroll.periods pk with
    | none => exact ⟨rfl, rfl⟩
    | some p =>
      dsimp only
      split <;> exact ⟨rfl, rfl⟩
  | periodDetail period_id =>
    simp only [applyOp, payrollPeriodDetailView]
    cases findPeriod s.payroll.periods period_id with
    | none => exact ⟨rfl, rfl⟩
    | some p => exact ⟨rfl, rfl⟩
  | calculationBreakdown pk =>
    simp only [applyOp, payrollBreakdownView]
    cases findCalculation s.payroll.calculations pk with
    | none => exact ⟨rfl, rfl⟩
    | some c => exact ⟨rfl, rfl⟩

/-- C7.  Uniqueness of (employee, payroll period) over the calculation
table is preserved by every exposed HTTP operation (none of them creates a
calculation row — the payroll computation is a stub) and by the direct
database insert, which the model's declared `unique_together` constraint
makes reject any duplicate key. -/
theorem payroll_calculation_uniqueness (s : AppState) (op : Operation)
    (c : PayrollCalculation) (h : calcUnique s.payroll.calculations) :
    calcUnique (applyOp s op).payroll.calculations ∧
    calcUnique (insertCalculation s.payroll c).1.calculations := by
  constructor
  · rw [(applyOp_tables s op).1]
    exact h
  · simp only [insertCalculation]
    split
    · exact h
    · rename_i hnone
      refine List.Pairwise.cons ?_ h
      intro b hb hcontra
      apply hnone
      rw [List.any_eq_true]
      exact ⟨b, hb, by rw [hcontra.1, hcontra.2]; simp⟩

/-- A stored calculation row: gross 1200 for employee 3 in period 1. -/
def exCalc : PayrollCalculation :=
  { id := 1, employee := 3, payroll_period := 1, basic_salary := 1000,
    total_earnings := 1200, gross_pay := 1200, total_deductions := 200,
    net_pay := 1000, payment_status := .pending }

/-- A second calculation row for a different employee in the same period. -/
def exCalc2 : PayrollCalculation :=
  { id := 2, employee := 4, payroll_period := 1, basic_salary := 900,
    total_earnings := 900, gross_pay := 900, total_deductions := 100,
    net_pay := 800, payment_status := .pending }

/-- Detail lines of `exCalc`: two earnings summing to its
`total_earnings` and one deduction equal to its `total_deductions`. -/
def exDetails : List PayrollCalculationDetail :=
  [{ id := 1, payroll_calculation := 1, item_type := .earning,
     description := "Basic Salary", amount := 1000 },
   { id := 2, payroll_calculation := 1, item_type := .earning,
     description := "Housing Allowance", amount := 200 },
   { id := 3, payroll_calculation := 1, item_type := .deduction,
     description := "PAYE", amount := 200 }]

/-- Payroll store holding the calculated period, `exCalc` and its lines. -/
def exPayrollFull : PayrollState :=
  { periods := [exPeriodCalc], calculations := [exCalc],
    details := exDetails }

/-- Whole store for the invariant witnesses. -/
def exAppState : AppState :=
  { leave := exLeaveState1, payroll := exPayrollFull }

/-- Witness for C7: processing period 1 keeps the single-row table unique,
and inserting a calculation for a different employee keeps it unique. -/
theorem payroll_calculation_uniqueness_witness :
    calcUnique (applyOp exAppState (.periodProcess 1 4)).payroll.calculations ∧
    calcUnique (insertCalculation exAppState.payroll exCalc2).1.calculations := by
  have h := payroll_calculation_uniqueness exAppState (.periodProcess 1 4)
    exCalc2 (by simp [calcUnique, exAppState, exPayrollFull])
  exact h

/-- C8.  The equality of each calculation's `total_earnings` /
`total_deductions` with the sums of its earning / deduction detail lines is
preserved by every exposed HTTP operation: none of them creates, deletes
or modifies a calculation or detail row. -/
theorem payroll_detail_sums_preserved (s : AppState) (op : Operation)
    (h : detailSumsOk s.payroll) : detailSumsOk (applyOp s op).payroll := by
  unfold detailSumsOk
  rw [(applyOp_tables s op).1, (applyOp_tables s op).2]
  exact h

/-- Witness for C8: the store holding `exCalc` (1000 + 200 earnings = 1200
= `total_earnings`, 200 deductions = `total_deductions`) still satisfies
the sum equality after the leave-submit endpoint runs. -/
theorem payroll_detail_sums_preserved_witness :
    detailSumsOk (applyOp exAppState (.leaveSubmit 1 9)).payroll := by
  have h := payroll_detail_sums_preserved exAppState (.leaveSubmit 1 9)
    (by intro c hc
        rcases List.mem_singleton.mp hc with rfl
        exact ⟨by decide, by decide⟩)
  exact h

end Edutech
